import Mathlib

/-!
Verification development for the hint-execution core of a Cairo-style VM
(`src/vm/hints/hint_utils.rs` and companions).  The Rust functions are
shallowly embedded as executable Lean definitions; machine integers are
modelled as `Nat`/`Int` with explicit two's-complement wrapping where the
source performs `as i32` / `as usize` casts or fixed-width arithmetic
(release-mode, i.e. wrapping, semantics).
-/

deriving instance DecidableEq for Except

namespace CairoHints

/-! ## Machine-integer helpers (two's-complement casts used by the source) -/

/-- Wraps an unbounded integer into the `i32` range `[-2^31, 2^31)`,
modelling Rust's wrapping 32-bit signed arithmetic. -/
def i32wrap (v : Int) : Int := (v + 2 ^ 31) % 2 ^ 32 - 2 ^ 31

/-- Models the Rust cast `(v : i32) as usize` on a 64-bit target:
sign-extension reinterpreted as an unsigned 64-bit value. -/
def usizeOfI32 (v : Int) : Nat := (v % 2 ^ 64).toNat

/-- Models `(v : i32).abs() as usize` in release mode: `i32::MIN.abs()`
wraps back to `i32::MIN`, whose `usize` cast is `2^64 - 2^31`. -/
def i32abs (v : Int) : Nat := usizeOfI32 (i32wrap (v.natAbs : Int))

/-- Wrapping `i32` addition (release-mode `+` on `i32`). -/
def i32add (a b : Int) : Int := i32wrap (a + b)

/-- Wrapping `usize` addition (release-mode `+` on `usize`, 64-bit). -/
def usizeAdd (a b : Nat) : Nat := (a + b) % 2 ^ 64

/-- Wrapping `usize` subtraction (release-mode `-` on `usize`, 64-bit). -/
def usizeSub (a b : Nat) : Nat := (((a : Int) - (b : Int)) % 2 ^ 64).toNat

/-! ## Data model

`Relocatable`, `MaybeRelocatable`, `ApTracking`, `Register`, the error
enums and the memory/scope containers live outside the two source files
under inspection; they are modelled from the spec (sections 3, 4.2, 7) and
from how `hint_utils.rs` uses them. -/

/-- Modelled from the spec: a relocatable address `(segment_index, offset)`
(spec section 3); the offset is a `usize`, hence a natural number. -/
structure Relocatable where
  segment_index : Int
  offset : Nat
deriving DecidableEq, Repr

/-- Modelled from the spec: the value sum type {integer, address}
(spec section 3, `MaybeRelocatable`). -/
inductive MaybeRelocatable where
  | Int (n : ℤ)
  | RelocatableValue (r : Relocatable)
deriving DecidableEq, Repr

/-- Modelled from the spec: ap-tracking data `{group, offset}`
(spec section 3); both fields are `usize` values. -/
structure ApTracking where
  group : Nat
  offset : Nat
deriving DecidableEq, Repr

/-- Modelled from the spec: the two VM registers a reference can be based
on (spec section 3). -/
inductive Register where
  | AP
  | FP
deriving DecidableEq, Repr

/-- Modelled from the spec: the symbolic reference descriptor
(spec section 3), with fields as used by `compute_addr_from_reference`:
`register` is always set there; `offset1`, `offset2` are `i32`; the
advisory `cairo_type` tag plays no role in address computation and is
omitted. -/
structure HintReference where
  register : Register
  offset1 : Int
  offset2 : Int
  dereference : Bool
  inner_dereference : Bool
  ap_tracking_data : Option ApTracking
  immediate : Option Int
deriving DecidableEq, Repr

/-- Modelled from the spec: the execution-scope error for popping the main
scope (spec section 7). -/
inductive ExecScopeError where
  | ExitMainScopeError
deriving DecidableEq, Repr

/-- Modelled from the spec: memory-subsystem errors — write-once violation
and out-of-bounds segment access (spec section 7). -/
inductive MemoryError where
  | UnallocatedSegment (segment : Int)
  | InconsistentMemory (addr : MaybeRelocatable)
deriving DecidableEq, Repr

/-- The error enum of the hint core, restricted to the constructors the
embedded functions use (spec section 7 and `hint_utils.rs`). -/
inductive VirtualMachineError where
  | BigintToUsizeFail
  | FailedToGetIds
  | NoneApTrackingData
  | InvalidTrackingGroup (ref_group hint_group : Nat)
  | InvalidApValue (v : MaybeRelocatable)
  | ExpectedRelocatable (v : MaybeRelocatable)
  | ExpectedInteger (v : MaybeRelocatable)
  | VariableNotInScope (name : String)
  | MainScopeError (e : ExecScopeError)
  | MemoryError (e : MemoryError)
deriving DecidableEq, Repr

/-- Modelled from the spec: the memory, represented by its fallible `get`
operation `address -> Result<Option<Value>, MemoryError>` — the exact shape
`compute_addr_from_reference` consumes (spec section 4.2). -/
def Memory : Type := MaybeRelocatable → Except MemoryError (Option MaybeRelocatable)

/-- Modelled from the spec: the run context exposing the two register
values consumed by reference resolution; both are `MaybeRelocatable` in
the source (`run_context.fp.clone()` is matched as a value). -/
structure RunContext where
  ap : MaybeRelocatable
  fp : MaybeRelocatable

/-- Modelled from the spec: the slice of the VM proxy the embedded
functions touch — the memory and the run context. -/
structure VMProxy where
  memory : Memory
  run_context : RunContext

/-- Modelled from the spec: write-once insertion (spec section 4.2):
fails if the address already holds a different value; inserting the same
value again is permitted. -/
def Memory.insert_value (m : Memory) (addr : Relocatable) (v : MaybeRelocatable) :
    Except VirtualMachineError Memory :=
  match m (.RelocatableValue addr) with
  | .ok none => .ok (fun a => if a = .RelocatableValue addr then .ok (some v) else m a)
  | .ok (some w) =>
    if w = v then .ok m
    else .error (.MemoryError (.InconsistentMemory (.RelocatableValue addr)))
  | .error e => .error (.MemoryError e)

/-- Modelled from the spec: typed accessor returning the `Address` held at
`addr`, erring when the cell is absent or holds an integer
(spec section 4.2, `get_address`). -/
def Memory.get_relocatable (m : Memory) (addr : Relocatable) :
    Except VirtualMachineError Relocatable :=
  match m (.RelocatableValue addr) with
  | .ok (some (.RelocatableValue r)) => .ok r
  | _ => .error (.ExpectedRelocatable (.RelocatableValue addr))

/-- Modelled from the spec: typed accessor returning the integer held at
`addr`, erring when the cell is absent or holds an address
(spec section 4.2, `get_integer`). -/
def Memory.get_integer (m : Memory) (addr : Relocatable) :
    Except VirtualMachineError Int :=
  match m (.RelocatableValue addr) with
  | .ok (some (.Int n)) => .ok n
  | _ => .error (.ExpectedInteger (.RelocatableValue addr))

/-! ## `hint_utils.rs`: reference resolution -/

/-- Embeds `bigint_to_usize`: `BigInt::to_usize` succeeds exactly on
`[0, 2^64)` (64-bit target). -/
def bigint_to_usize (v : Int) : Except VirtualMachineError Nat :=
  if 0 ≤ v ∧ v < 2 ^ 64 then .ok v.toNat else .error .BigintToUsizeFail

/-- Embeds `apply_ap_tracking_correction` (`hint_utils.rs` lines 74-92):
group mismatch is a hard error; otherwise the corrected offset is
`ap.offset - (hint_ap_tracking.offset - ref_ap_tracking.offset)` in
`usize` arithmetic. -/
def apply_ap_tracking_correction (ap : Relocatable)
    (ref_ap_tracking hint_ap_tracking : ApTracking) :
    Except VirtualMachineError MaybeRelocatable :=
  if ref_ap_tracking.group ≠ hint_ap_tracking.group then
    .error (.InvalidTrackingGroup ref_ap_tracking.group hint_ap_tracking.group)
  else
    .ok (.RelocatableValue ⟨ap.segment_index,
      usizeSub ap.offset (usizeSub hint_ap_tracking.offset ref_ap_tracking.offset)⟩)

/-- Embeds the base-address selection block of `compute_addr_from_reference`
(`hint_utils.rs` lines 103-124): `FP` yields `run_context.fp`; `AP`
requires both ap-tracking values, a relocatable `run_context.ap`, and
applies the correction. -/
def compute_base_addr (hint_reference : HintReference) (run_context : RunContext)
    (hint_ap_tracking : Option ApTracking) :
    Except VirtualMachineError MaybeRelocatable :=
  match hint_reference.register with
  | .FP => .ok run_context.fp
  | .AP =>
    match hint_ap_tracking, hint_reference.ap_tracking_data with
    | some hat, some rat =>
      match run_context.ap with
      | .RelocatableValue relocatable => apply_ap_tracking_correction relocatable rat hat
      | v => .error (.InvalidApValue v)
    | _, _ => .error .NoneApTrackingData

/-- Embeds `compute_addr_from_reference` (`hint_utils.rs` lines 95-168).
After base selection: the underflow guard compares `|offset1|` with the
base offset; the direct case computes `(offset as i32 + offset1 + offset2)
as usize`; the inner-dereference case reads memory at
`(offset as i32 + offset1) as usize` and treats any non-address outcome
(absent cell, integer cell, or memory error) as `Ok(None)`. -/
def compute_addr_from_reference (hint_reference : HintReference)
    (run_context : RunContext) (memory : Memory)
    (hint_ap_tracking : Option ApTracking) :
    Except VirtualMachineError (Option MaybeRelocatable) :=
  match compute_base_addr hint_reference run_context hint_ap_tracking with
  | .error e => .error e
  | .ok base_addr =>
    match base_addr with
    | .RelocatableValue relocatable =>
      if hint_reference.offset1 < 0 ∧ relocatable.offset < i32abs hint_reference.offset1 then
        .ok none
      else if ¬ hint_reference.inner_dereference then
        .ok (some (.RelocatableValue ⟨relocatable.segment_index,
          usizeOfI32 (i32add (i32add (i32wrap (relocatable.offset : Int))
            hint_reference.offset1) hint_reference.offset2)⟩))
      else
        match memory (.RelocatableValue ⟨relocatable.segment_index,
          usizeOfI32 (i32add (i32wrap (relocatable.offset : Int))
            hint_reference.offset1)⟩) with
        | .ok (some (.RelocatableValue dereferenced_addr)) =>
          match hint_reference.immediate with
          | some imm =>
            match bigint_to_usize imm with
            | .ok u => .ok (some (.RelocatableValue ⟨dereferenced_addr.segment_index,
                usizeAdd dereferenced_addr.offset u⟩))
            | .error e => .error e
          | none =>
            .ok (some (.RelocatableValue ⟨dereferenced_addr.segment_index,
              usizeOfI32 (i32add (i32wrap (dereferenced_addr.offset : Int))
                hint_reference.offset2)⟩))
        | _ => .ok none
    | _ => .ok none

/-! ## `hint_utils.rs`: name-based accessors -/

/-- Embeds `get_address_from_var_name` (`hint_utils.rs` lines 170-185):
look up the reference, resolve it with the call-site ap-tracking, and turn
both a lookup miss and an unresolved (`None`) address into
`FailedToGetIds`. -/
def get_address_from_var_name (var_name : String) (vm_proxy : VMProxy)
    (ids_data : String → Option HintReference) (ap_tracking : ApTracking) :
    Except VirtualMachineError MaybeRelocatable :=
  match ids_data var_name with
  | none => .error .FailedToGetIds
  | some r =>
    match compute_addr_from_reference r vm_proxy.run_context vm_proxy.memory
        (some ap_tracking) with
    | .error e => .error e
    | .ok none => .error .FailedToGetIds
    | .ok (some a) => .ok a

/-- Embeds `get_relocatable_from_var_name` (`hint_utils.rs` lines 217-227):
requires the resolved address to be a `RelocatableValue`. -/
def get_relocatable_from_var_name (var_name : String) (vm_proxy : VMProxy)
    (ids_data : String → Option HintReference) (ap_tracking : ApTracking) :
    Except VirtualMachineError Relocatable :=
  match get_address_from_var_name var_name vm_proxy ids_data ap_tracking with
  | .ok (.RelocatableValue r) => .ok r
  | .ok a => .error (.ExpectedRelocatable a)
  | .error e => .error e

/-- Embeds `get_integer_from_var_name` (`hint_utils.rs` lines 232-240). -/
def get_integer_from_var_name (var_name : String) (vm_proxy : VMProxy)
    (ids_data : String → Option HintReference) (ap_tracking : ApTracking) :
    Except VirtualMachineError Int :=
  match get_relocatable_from_var_name var_name vm_proxy ids_data ap_tracking with
  | .ok r => vm_proxy.memory.get_integer r
  | .error e => .error e

/-- Embeds `insert_value_from_var_name` (`hint_utils.rs` lines 187-196):
resolves the (non-dereferenced) address and performs the write-once
memory insertion, returning the updated VM proxy. -/
def insert_value_from_var_name (var_name : String) (value : MaybeRelocatable)
    (vm_proxy : VMProxy) (ids_data : String → Option HintReference)
    (ap_tracking : ApTracking) : Except VirtualMachineError VMProxy :=
  match get_relocatable_from_var_name var_name vm_proxy ids_data ap_tracking with
  | .error e => .error e
  | .ok var_address =>
    match vm_proxy.memory.insert_value var_address value with
    | .error e => .error e
    | .ok m => .ok { vm_proxy with memory := m }

/-- Embeds `get_ptr_from_var_name` (`hint_utils.rs` lines 47-72): when the
reference is marked `dereference`, reads the `Address` value at the
computed cell and adds `immediate` (converted to `usize`) to its offset if
present; otherwise returns the computed address itself. -/
def get_ptr_from_var_name (var_name : String) (vm_proxy : VMProxy)
    (ids_data : String → Option HintReference) (ap_tracking : ApTracking) :
    Except VirtualMachineError Relocatable :=
  match get_relocatable_from_var_name var_name vm_proxy ids_data ap_tracking with
  | .error e => .error e
  | .ok var_addr =>
    match ids_data var_name with
    | none => .error .FailedToGetIds
    | some hint_reference =>
      if hint_reference.dereference then
        match vm_proxy.memory.get_relocatable var_addr with
        | .error e => .error e
        | .ok value =>
          match hint_reference.immediate with
          | some immediate =>
            match bigint_to_usize immediate with
            | .error e => .error e
            | .ok u => .ok ⟨value.segment_index, usizeAdd value.offset u⟩
          | none => .ok value
      else .ok var_addr

/-! ## Execution scopes -/

/-- Modelled from the spec: a dynamically-typed scope value (a
type-erased box; spec sections 3 and 9).  Only the integer variant is
inspected by the embedded hints; `other` stands for every other dynamic
type. -/
inductive DynValue where
  | int (n : ℤ)
  | other (tag : String)
deriving DecidableEq, Repr

/-- Modelled from the spec: a scope is a mapping from variable name to
dynamically-typed value (spec section 3). -/
def Scope : Type := String → Option DynValue

/-- Modelled from the spec: the non-empty stack of scopes; the head of
`data` is the current (innermost) scope (spec section 3). -/
structure ExecutionScopes where
  data : List Scope

/-- Modelled from the spec: push a new scope (spec section 4.5). -/
def ExecutionScopes.enter_scope (s : ExecutionScopes) (scope : Scope) :
    ExecutionScopes := ⟨scope :: s.data⟩

/-- Modelled from the spec: pop the current scope; popping the last
(main) scope is an error (spec sections 3 and 4.5). -/
def ExecutionScopes.exit_scope (s : ExecutionScopes) :
    Except ExecScopeError ExecutionScopes :=
  if s.data.length = 1 then .error .ExitMainScopeError
  else .ok ⟨s.data.tail⟩

/-- Modelled from the spec: read variable `name` from the current scope as
an integer; absence and a wrong dynamic type both yield
`VariableNotInScope` (spec section 4.5). -/
def ExecutionScopes.get_int_ref (s : ExecutionScopes) (name : String) :
    Except VirtualMachineError Int :=
  match s.data with
  | scope :: _ =>
    match scope name with
    | some (.int n) => .ok n
    | _ => .error (.VariableNotInScope name)
  | [] => .error (.VariableNotInScope name)

/-- Modelled from the spec: bind `name` to `v` in the current scope,
overwriting any prior binding (spec section 4.5). -/
def ExecutionScopes.insert_value (s : ExecutionScopes) (name : String)
    (v : DynValue) : ExecutionScopes :=
  match s.data with
  | scope :: rest => ⟨(fun k => if k = name then some v else scope k) :: rest⟩
  | [] => s

/-! ## `hint_utils.rs`: scope and memcpy hints -/

/-- Embeds the `enter_scope` hint (`hint_utils.rs` lines 249-254):
pushes an empty scope. -/
def enter_scope (exec_scopes : ExecutionScopes) :
    Except VirtualMachineError ExecutionScopes :=
  .ok (exec_scopes.enter_scope (fun _ => none))

/-- Embeds the `exit_scope` hint (`hint_utils.rs` lines 258-262): pops a
scope, mapping the scope error into `MainScopeError`. -/
def exit_scope (exec_scopes : ExecutionScopes) :
    Except VirtualMachineError ExecutionScopes :=
  match exec_scopes.exit_scope with
  | .ok t => .ok t
  | .error e => .error (.MainScopeError e)

/-- Embeds `memcpy_enter_scope` (`hint_utils.rs` lines 266-276): reads the
integer `len` and pushes a scope binding `n` to it. -/
def memcpy_enter_scope (vm_proxy : VMProxy) (exec_scopes : ExecutionScopes)
    (ids_data : String → Option HintReference) (ap_tracking : ApTracking) :
    Except VirtualMachineError ExecutionScopes :=
  match get_integer_from_var_name "len" vm_proxy ids_data ap_tracking with
  | .error e => .error e
  | .ok len =>
    .ok (exec_scopes.enter_scope (fun k => if k = "n" then some (.int len) else none))

/-- Embeds `memcpy_continue_copying` (`hint_utils.rs` lines 283-314):
reads `n` from the current scope, writes `1` into `continue_copying`'s
cell when `n - 1 > 0` and `0` otherwise, then stores `n - 1` back into the
current scope. -/
def memcpy_continue_copying (vm_proxy : VMProxy) (exec_scopes : ExecutionScopes)
    (ids_data : String → Option HintReference) (ap_tracking : ApTracking) :
    Except VirtualMachineError (VMProxy × ExecutionScopes) :=
  match exec_scopes.get_int_ref "n" with
  | .error e => .error e
  | .ok n =>
    let new_n := n - 1
    match (if 0 < new_n then
        insert_value_from_var_name "continue_copying" (.Int 1) vm_proxy ids_data ap_tracking
      else
        insert_value_from_var_name "continue_copying" (.Int 0) vm_proxy ids_data ap_tracking) with
    | .error e => .error e
    | .ok vm2 => .ok (vm2, exec_scopes.insert_value "n" (.int new_n))

/-- Iterates `memcpy_continue_copying` a given number of times, threading
the VM proxy and the scopes; used to state the counted-loop property. -/
def memcpy_iter : Nat → VMProxy → ExecutionScopes →
    (String → Option HintReference) → ApTracking →
    Except VirtualMachineError (VMProxy × ExecutionScopes)
  | 0, vm, s, _, _ => .ok (vm, s)
  | Nat.succ k, vm, s, ids_data, ap_tracking =>
    match memcpy_continue_copying vm s ids_data ap_tracking with
    | .error e => .error e
    | .ok (vm2, s2) => memcpy_iter k vm2 s2 ids_data ap_tracking

/-! ## Concrete instances used by witnesses and counterexamples -/

/-- The everywhere-empty memory: every `get` answers `Ok(None)`. -/
def cMemEmpty : Memory := fun _ => .ok none

/-! ## Arithmetic facts about the machine-integer helpers -/

theorem i32wrap_eq_self (v : Int) (h1 : -(2 ^ 31) ≤ v) (h2 : v < 2 ^ 31) :
    i32wrap v = v := by
  unfold i32wrap
  omega

theorem i32wrap_i32wrap_add (x y : Int) :
    i32wrap (i32wrap x + y) = i32wrap (x + y) := by
  unfold i32wrap
  omega

theorem usizeOfI32_eq_toNat (v : Int) (h1 : 0 ≤ v) (h2 : v < 2 ^ 64) :
    usizeOfI32 v = v.toNat := by
  unfold usizeOfI32
  omega

theorem usizeSub_eq_sub (a b : Nat) (h1 : b ≤ a) (h2 : a < 2 ^ 64) :
    usizeSub a b = a - b := by
  unfold usizeSub
  omega

theorem direct_offset_eq (b : Nat) (o1 o2 : Int) (hb : b < 2 ^ 31)
    (hs : 0 ≤ (b : Int) + o1 + o2) (hsa : (b : Int) + o1 + o2 < 2 ^ 31) :
    usizeOfI32 (i32add (i32add (i32wrap (b : Int)) o1) o2) =
      ((b : Int) + o1 + o2).toNat := by
  unfold i32add
  rw [i32wrap_eq_self (b : Int) (by omega) (by omega)]
  rw [i32wrap_i32wrap_add]
  rw [i32wrap_eq_self ((b : Int) + o1 + o2) (by omega) (by omega)]
  exact usizeOfI32_eq_toNat _ (by omega) (by omega)

theorem single_offset_eq (b : Nat) (o1 : Int) (hb : b < 2 ^ 31)
    (hs : 0 ≤ (b : Int) + o1) (hsa : (b : Int) + o1 < 2 ^ 31) :
    usizeOfI32 (i32add (i32wrap (b : Int)) o1) = ((b : Int) + o1).toNat := by
  unfold i32add
  rw [i32wrap_eq_self (b : Int) (by omega) (by omega)]
  rw [i32wrap_eq_self ((b : Int) + o1) (by omega) (by omega)]
  exact usizeOfI32_eq_toNat _ (by omega) (by omega)

theorem i32abs_eq_natAbs (v : Int) (h1 : -(2 ^ 31) < v) (h2 : v < 2 ^ 31) :
    i32abs v = v.natAbs := by
  unfold i32abs usizeOfI32
  rw [i32wrap_eq_self (v.natAbs : Int) (by omega) (by omega)]
  omega

/-! ## Claim theorems -/

/-- C6: for every reference with `register = AllocationPointer`, if the
reference's `ap_tracking_data` is absent or the call-site ap-tracking
context is absent, resolution fails with `NoneApTrackingData` before any
address is computed. -/
theorem compute_addr_none_ap_tracking (ref : HintReference) (ctx : RunContext)
    (mem : Memory) (hat : Option ApTracking) (hreg : ref.register = .AP)
    (h : ref.ap_tracking_data = none ∨ hat = none) :
    compute_addr_from_reference ref ctx mem hat = .error .NoneApTrackingData := by
  have hbase : compute_base_addr ref ctx hat = .error .NoneApTrackingData := by
    unfold compute_base_addr
    rw [hreg]
    rcases h with h | h
    · rw [h]
      cases hat <;> rfl
    · rw [h]
  unfold compute_addr_from_reference
  rw [hbase]

/-- Closed witness for C6: an AllocationPointer reference with no tracking
data fails with `NoneApTrackingData`. -/
theorem compute_addr_none_ap_tracking_witness :
    compute_addr_from_reference ⟨Register.AP, 0, 0, false, false, none, none⟩
      ⟨.RelocatableValue ⟨1, 4⟩, .RelocatableValue ⟨1, 0⟩⟩ cMemEmpty
      (some ⟨0, 0⟩) = .error .NoneApTrackingData :=
  compute_addr_none_ap_tracking _ _ _ _ rfl (Or.inl rfl)

/-- C3: for every AllocationPointer-based reference whose tracking group
differs from the call-site group, resolution fails with
`InvalidTrackingGroup` carrying both group values, and never returns a
computed address or `None`. -/
theorem compute_addr_invalid_tracking_group (ref : HintReference)
    (ctx : RunContext) (mem : Memory) (rat hat : ApTracking) (b : Relocatable)
    (hreg : ref.register = .AP) (hrat : ref.ap_tracking_data = some rat)
    (hap : ctx.ap = .RelocatableValue b) (hg : rat.group ≠ hat.group) :
    compute_addr_from_reference ref ctx mem (some hat) =
      .error (.InvalidTrackingGroup rat.group hat.group) := by
  have hbase : compute_base_addr ref ctx (some hat) =
      .error (.InvalidTrackingGroup rat.group hat.group) := by
    unfold compute_base_addr
    rw [hreg, hrat, hap]
    dsimp only
    unfold apply_ap_tracking_correction
    rw [if_pos hg]
  unfold compute_addr_from_reference
  rw [hbase]

/-- Closed witness for C3: groups 1 (reference) versus 2 (call site). -/
theorem compute_addr_invalid_tracking_group_witness :
    compute_addr_from_reference ⟨Register.AP, 0, 0, false, false, some ⟨1, 0⟩, none⟩
      ⟨.RelocatableValue ⟨1, 4⟩, .RelocatableValue ⟨1, 0⟩⟩ cMemEmpty
      (some ⟨2, 0⟩) = .error (.InvalidTrackingGroup 1 2) :=
  compute_addr_invalid_tracking_group _ _ _ ⟨1, 0⟩ ⟨2, 0⟩ ⟨1, 4⟩ rfl rfl rfl
    (by decide)

/-- C2: for an AllocationPointer reference whose tracking data is present
and matches the call-site group, the corrected base used by
`compute_addr_from_reference` keeps `base_ap`'s segment and has offset
`base_ap.offset - (call_site.offset - reference.offset)` (`usize` values
in range, subtraction not underflowing). -/
theorem compute_base_addr_ap_corrected (ref : HintReference) (ctx : RunContext)
    (rat hat : ApTracking) (b : Relocatable)
    (hreg : ref.register = .AP) (hrat : ref.ap_tracking_data = some rat)
    (hap : ctx.ap = .RelocatableValue b) (hg : rat.group = hat.group)
    (h1 : rat.offset ≤ hat.offset) (h2 : hat.offset - rat.offset ≤ b.offset)
    (h3 : hat.offset < 2 ^ 64) (h4 : b.offset < 2 ^ 64) :
    compute_base_addr ref ctx (some hat) =
      .ok (.RelocatableValue ⟨b.segment_index,
        b.offset - (hat.offset - rat.offset)⟩) := by
  unfold compute_base_addr
  rw [hreg, hrat, hap]
  dsimp only
  unfold apply_ap_tracking_correction
  rw [if_neg (by simp [hg])]
  rw [usizeSub_eq_sub hat.offset rat.offset h1 h3]
  rw [usizeSub_eq_sub b.offset (hat.offset - rat.offset) h2 h4]

/-- C1 (amended): for a FramePointer reference with
`inner_dereference = false`, provided the underflow guard on `offset1`
does not fire and the 32-bit signed sum `base_fp.offset + offset1 +
offset2` stays in `[0, 2^31)` (with `base_fp.offset < 2^31`),
`compute_addr_from_reference` returns
`(base_fp.segment, base_fp.offset + offset1 + offset2)`, independent of
the call-site ap-tracking argument and of the reference's
`ap_tracking_data`. -/
theorem compute_addr_fp_direct (ref : HintReference) (ctx : RunContext)
    (mem : Memory) (hat : Option ApTracking) (b : Relocatable)
    (hreg : ref.register = .FP) (hfp : ctx.fp = .RelocatableValue b)
    (hinner : ref.inner_dereference = false)
    (hguard : ¬ (ref.offset1 < 0 ∧ b.offset < i32abs ref.offset1))
    (hb : b.offset < 2 ^ 31)
    (hs : 0 ≤ (b.offset : Int) + ref.offset1 + ref.offset2)
    (hsa : (b.offset : Int) + ref.offset1 + ref.offset2 < 2 ^ 31) :
    compute_addr_from_reference ref ctx mem hat =
      .ok (some (.RelocatableValue ⟨b.segment_index,
        ((b.offset : Int) + ref.offset1 + ref.offset2).toNat⟩)) := by
  have hbase : compute_base_addr ref ctx hat = .ok (.RelocatableValue b) := by
    unfold compute_base_addr
    rw [hreg, hfp]
  unfold compute_addr_from_reference
  rw [hbase]
  dsimp only
  rw [if_neg hguard, hinner]
  rw [if_pos (by decide)]
  rw [direct_offset_eq b.offset ref.offset1 ref.offset2 hb hs hsa]

/-- Counterexample to C1 as stated: with `register = FramePointer`,
`inner_dereference = false`, `offset1 = -20`, `offset2 = 0` and base
`(0, 5)`, the function returns `Ok(None)` — not the address
`(0, 5 - 20 + 0)` the claim asserts for every reference and base. -/
theorem compute_addr_fp_direct_cex :
    compute_addr_from_reference ⟨Register.FP, -20, 0, false, false, none, none⟩
      ⟨.Int 0, .RelocatableValue ⟨0, 5⟩⟩ cMemEmpty none = .ok none := by
  decide

/-- Closed witness for C1: base `(3, 10)`, `offset1 = -2`, `offset2 = 4`
resolves to `(3, 12)` under an arbitrary call-site ap-tracking. -/
theorem compute_addr_fp_direct_witness :
    compute_addr_from_reference ⟨Register.FP, -2, 4, false, false, none, none⟩
      ⟨.Int 0, .RelocatableValue ⟨3, 10⟩⟩ cMemEmpty (some ⟨7, 9⟩) =
      .ok (some (.RelocatableValue ⟨3, 12⟩)) :=
  compute_addr_fp_direct _ _ _ _ ⟨3, 10⟩ rfl rfl rfl (by decide) (by decide)
    (by decide) (by decide)

/-- C5 (amended): whenever the selected base is a relocatable address and
`offset1` is negative with `|offset1|` (as cast to `usize`) exceeding the
base offset, the result is `Ok(None)` — for any register and any
dereference-flag combination.  The direct-case sum, however, is cast to
`usize` without a non-negativity check (see the counterexample). -/
theorem compute_addr_underflow_none (ref : HintReference) (ctx : RunContext)
    (mem : Memory) (hat : Option ApTracking) (b : Relocatable)
    (hbase : compute_base_addr ref ctx hat = .ok (.RelocatableValue b))
    (hneg : ref.offset1 < 0) (hlt : b.offset < i32abs ref.offset1) :
    compute_addr_from_reference ref ctx mem hat = .ok none := by
  unfold compute_addr_from_reference
  rw [hbase]
  dsimp only
  rw [if_pos ⟨hneg, hlt⟩]

/-- Counterexample to C5 as stated: with base `(0, 5)`, `offset1 = -3`,
`offset2 = -10` the signed sum `5 - 3 - 10 = -8` is negative, yet the
function returns the wrapped-around offset `2^64 - 8` instead of `None`:
the claimed non-negativity check on the direct-case sum does not exist. -/
theorem compute_addr_wraparound_cex :
    compute_addr_from_reference ⟨Register.FP, -3, -10, false, false, none, none⟩
      ⟨.Int 0, .RelocatableValue ⟨0, 5⟩⟩ cMemEmpty none =
      .ok (some (.RelocatableValue ⟨0, 18446744073709551608⟩)) := by
  decide

/-- Closed witness for C5: `offset1 = -20` with base offset `5`, with both
dereference flags set, yields `Ok(None)`. -/
theorem compute_addr_underflow_none_witness :
    compute_addr_from_reference ⟨Register.FP, -20, 3, true, true, none, none⟩
      ⟨.Int 0, .RelocatableValue ⟨0, 5⟩⟩ cMemEmpty none = .ok none :=
  compute_addr_underflow_none _ _ _ _ ⟨0, 5⟩ (by decide) (by decide) (by decide)

/-- C10: in the inner-dereference path, a memory error returned by the
intermediate `Memory.get` is converted into `Ok(None)` rather than being
propagated: the catch-all arm of the match treats `Err(_)` like an absent
cell. -/
theorem compute_addr_memory_error_to_none (ref : HintReference)
    (ctx : RunContext) (mem : Memory) (hat : Option ApTracking) (b : Relocatable)
    (hbase : compute_base_addr ref ctx hat = .ok (.RelocatableValue b))
    (hinner : ref.inner_dereference = true)
    (hguard : ¬ (ref.offset1 < 0 ∧ b.offset < i32abs ref.offset1))
    (e : MemoryError)
    (hmem : mem (.RelocatableValue ⟨b.segment_index,
      usizeOfI32 (i32add (i32wrap (b.offset : Int)) ref.offset1)⟩) = .error e) :
    compute_addr_from_reference ref ctx mem hat = .ok none := by
  unfold compute_addr_from_reference
  rw [hbase]
  dsimp only
  rw [if_neg hguard, hinner]
  rw [if_neg (by decide)]
  rw [hmem]

/-- The memory whose `get` always reports an unallocated segment. -/
def cMemErr : Memory := fun _ => .error (.UnallocatedSegment 0)

/-- Closed witness for C10: against an erroring memory, the
inner-dereference path yields `Ok(None)`. -/
theorem compute_addr_memory_error_to_none_witness :
    compute_addr_from_reference ⟨Register.FP, 1, 2, false, true, none, none⟩
      ⟨.Int 0, .RelocatableValue ⟨0, 5⟩⟩ cMemErr none = .ok none :=
  compute_addr_memory_error_to_none _ _ _ _ ⟨0, 5⟩ (by decide) rfl (by decide)
    (.UnallocatedSegment 0) rfl

/-- C4: with `inner_dereference = true` and a non-underflowing base (all
quantities in 32-bit range), the function reads memory at
`(base.segment, base.offset + offset1)`; an absent or integer cell gives
`Ok(None)`; an address cell `d` gives `d + immediate` when `immediate` is
set (with `offset2` ignored) and `(d.segment, d.offset + offset2)`
otherwise. -/
theorem compute_addr_inner_dereference (ref : HintReference) (ctx : RunContext)
    (mem : Memory) (hat : Option ApTracking) (b : Relocatable)
    (hbase : compute_base_addr ref ctx hat = .ok (.RelocatableValue b))
    (hinner : ref.inner_dereference = true)
    (hguard : ¬ (ref.offset1 < 0 ∧ b.offset < i32abs ref.offset1))
    (hb : b.offset < 2 ^ 31) (h1 : -(2 ^ 31) < ref.offset1)
    (h1a : ref.offset1 < 2 ^ 31)
    (hbo1 : (b.offset : Int) + ref.offset1 < 2 ^ 31) :
    (mem (.RelocatableValue ⟨b.segment_index,
        ((b.offset : Int) + ref.offset1).toNat⟩) = .ok none →
      compute_addr_from_reference ref ctx mem hat = .ok none)
    ∧ (∀ z : Int, mem (.RelocatableValue ⟨b.segment_index,
          ((b.offset : Int) + ref.offset1).toNat⟩) = .ok (some (.Int z)) →
        compute_addr_from_reference ref ctx mem hat = .ok none)
    ∧ (∀ d : Relocatable, ∀ imm : Int,
        mem (.RelocatableValue ⟨b.segment_index,
          ((b.offset : Int) + ref.offset1).toNat⟩) =
          .ok (some (.RelocatableValue d)) →
        ref.immediate = some imm → 0 ≤ imm → imm < 2 ^ 64 →
        d.offset + imm.toNat < 2 ^ 64 →
        compute_addr_from_reference ref ctx mem hat =
          .ok (some (.RelocatableValue ⟨d.segment_index, d.offset + imm.toNat⟩)))
    ∧ (∀ d : Relocatable,
        mem (.RelocatableValue ⟨b.segment_index,
          ((b.offset : Int) + ref.offset1).toNat⟩) =
          .ok (some (.RelocatableValue d)) →
        ref.immediate = none → d.offset < 2 ^ 31 →
        0 ≤ (d.offset : Int) + ref.offset2 →
        (d.offset : Int) + ref.offset2 < 2 ^ 31 →
        compute_addr_from_reference ref ctx mem hat =
          .ok (some (.RelocatableValue ⟨d.segment_index,
            ((d.offset : Int) + ref.offset2).toNat⟩))) := by
  have habs : i32abs ref.offset1 = ref.offset1.natAbs :=
    i32abs_eq_natAbs ref.offset1 h1 h1a
  rw [habs] at hguard
  have hge : 0 ≤ (b.offset : Int) + ref.offset1 := by omega
  have hstep : compute_addr_from_reference ref ctx mem hat =
      (match mem (.RelocatableValue ⟨b.segment_index,
          ((b.offset : Int) + ref.offset1).toNat⟩) with
        | .ok (some (.RelocatableValue dereferenced_addr)) =>
          match ref.immediate with
          | some imm =>
            match bigint_to_usize imm with
            | .ok u => .ok (some (.RelocatableValue ⟨dereferenced_addr.segment_index,
                usizeAdd dereferenced_addr.offset u⟩))
            | .error e => .error e
          | none =>
            .ok (some (.RelocatableValue ⟨dereferenced_addr.segment_index,
              usizeOfI32 (i32add (i32wrap (dereferenced_addr.offset : Int))
                ref.offset2)⟩))
        | _ => .ok none) := by
    unfold compute_addr_from_reference
    rw [hbase]
    dsimp only
    rw [if_neg (by rw [habs]; exact hguard), hinner]
    rw [if_neg (by decide)]
    rw [single_offset_eq b.offset ref.offset1 hb hge hbo1]
  refine ⟨?_, ?_, ?_, ?_⟩
  · intro hmem
    rw [hstep, hmem]
  · intro z hmem
    rw [hstep, hmem]
  · intro d imm hmem himm him0 him64 hsum
    rw [hstep, hmem]
    dsimp only
    rw [himm]
    unfold bigint_to_usize
    dsimp only
    rw [if_pos ⟨him0, him64⟩]
    dsimp only
    unfold usizeAdd
    rw [Nat.mod_eq_of_lt hsum]
  · intro d hmem himm hd hs2 hs2a
    rw [hstep, hmem]
    dsimp only
    rw [himm]
    dsimp only
    rw [single_offset_eq d.offset ref.offset2 hd hs2 hs2a]

/-- The memory for the C4 witness: the single cell `(0, 8)` holds the
address `(1, 7)`. -/
def cMemC4 : Memory := fun a =>
  if a = .RelocatableValue ⟨0, 8⟩ then .ok (some (.RelocatableValue ⟨1, 7⟩))
  else .ok none

/-- Closed witness for C4, the spec's own instance: base offset 10,
`offset1 = -2` pointing at a cell holding the address `(1, 7)`,
`offset2 = 3`, no immediate: the result is `(1, 10)`. -/
theorem compute_addr_inner_dereference_witness :
    compute_addr_from_reference ⟨Register.FP, -2, 3, false, true, none, none⟩
      ⟨.Int 0, .RelocatableValue ⟨0, 10⟩⟩ cMemC4 none =
      .ok (some (.RelocatableValue ⟨1, 10⟩)) :=
  ((compute_addr_inner_dereference _ _ _ _ ⟨0, 10⟩ (by decide) rfl (by decide)
      (by decide) (by decide) (by decide) (by decide)).2.2.2) ⟨1, 7⟩ (by decide)
    rfl (by decide) (by decide) (by decide)

/-- Closed witness for C2: `base_ap = (1, 10)`, reference offset 2, call
site offset 5: corrected base is `(1, 7)`. -/
theorem compute_base_addr_ap_corrected_witness :
    compute_base_addr ⟨Register.AP, 0, 0, false, false, some ⟨3, 2⟩, none⟩
      ⟨.RelocatableValue ⟨1, 10⟩, .RelocatableValue ⟨1, 0⟩⟩ (some ⟨3, 5⟩) =
      .ok (.RelocatableValue ⟨1, 7⟩) :=
  compute_base_addr_ap_corrected _ _ ⟨3, 2⟩ ⟨3, 5⟩ ⟨1, 10⟩ rfl rfl rfl rfl
    (by decide) (by decide) (by decide) (by decide)

/-- C9: `exit_scope` on a stack of size 1 fails with the main-scope error
(the input stack is immutable here, so it is trivially left unchanged);
on a stack of size greater than 1 it succeeds and pops exactly one
scope. -/
theorem exit_scope_spec (s : ExecutionScopes) :
    (s.data.length = 1 →
      exit_scope s = .error (.MainScopeError .ExitMainScopeError))
    ∧ (1 < s.data.length →
      exit_scope s = .ok ⟨s.data.tail⟩ ∧
        s.data.tail.length = s.data.length - 1) := by
  constructor
  · intro h
    unfold exit_scope ExecutionScopes.exit_scope
    rw [if_pos h]
  · intro h
    unfold exit_scope ExecutionScopes.exit_scope
    rw [if_neg (by omega)]
    refine ⟨rfl, ?_⟩
    cases hd : s.data with
    | nil => rw [hd] at h; simp at h
    | cons a t => simp

/-- The scope with no bindings. -/
def cScopeEmpty : Scope := fun _ => none

/-- Closed witness for C9: a singleton stack errors; a two-element stack
pops down to one scope. -/
theorem exit_scope_spec_witness :
    exit_scope ⟨[cScopeEmpty]⟩ = .error (.MainScopeError .ExitMainScopeError) ∧
      exit_scope ⟨[cScopeEmpty, cScopeEmpty]⟩ = .ok ⟨[cScopeEmpty]⟩ :=
  ⟨(exit_scope_spec ⟨[cScopeEmpty]⟩).1 (by decide),
    ((exit_scope_spec ⟨[cScopeEmpty, cScopeEmpty]⟩).2 (by decide)).1⟩

/-- C8: for a name bound in the reference mapping whose (non-dereferenced)
address resolves to `var_addr`: with `dereference = false` the computed
address itself is returned; with `dereference = true` the value at
`var_addr` is read, a missing or integer cell is an error, and an address
cell is returned as is (no immediate) or with `immediate` added to its
offset. -/
theorem get_ptr_from_var_name_spec (vm : VMProxy)
    (ids_data : String → Option HintReference) (apt : ApTracking)
    (name : String) (ref : HintReference) (var_addr : Relocatable)
    (href : ids_data name = some ref)
    (haddr : get_relocatable_from_var_name name vm ids_data apt = .ok var_addr) :
    (ref.dereference = false →
      get_ptr_from_var_name name vm ids_data apt = .ok var_addr)
    ∧ (ref.dereference = true →
      ((vm.memory (.RelocatableValue var_addr) = .ok none →
          get_ptr_from_var_name name vm ids_data apt =
            .error (.ExpectedRelocatable (.RelocatableValue var_addr)))
       ∧ (∀ z : Int,
          vm.memory (.RelocatableValue var_addr) = .ok (some (.Int z)) →
          get_ptr_from_var_name name vm ids_data apt =
            .error (.ExpectedRelocatable (.RelocatableValue var_addr)))
       ∧ (∀ d : Relocatable,
          vm.memory (.RelocatableValue var_addr) =
            .ok (some (.RelocatableValue d)) →
          ref.immediate = none →
          get_ptr_from_var_name name vm ids_data apt = .ok d)
       ∧ (∀ d : Relocatable, ∀ imm : Int,
          vm.memory (.RelocatableValue var_addr) =
            .ok (some (.RelocatableValue d)) →
          ref.immediate = some imm → 0 ≤ imm → imm < 2 ^ 64 →
          d.offset + imm.toNat < 2 ^ 64 →
          get_ptr_from_var_name name vm ids_data apt =
            .ok ⟨d.segment_index, d.offset + imm.toNat⟩))) := by
  have hstep : get_ptr_from_var_name name vm ids_data apt =
      (if ref.dereference then
        match vm.memory.get_relocatable var_addr with
        | .error e => .error e
        | .ok value =>
          match ref.immediate with
          | some immediate =>
            match bigint_to_usize immediate with
            | .error e => .error e
            | .ok u => .ok ⟨value.segment_index, usizeAdd value.offset u⟩
          | none => .ok value
      else .ok var_addr) := by
    unfold get_ptr_from_var_name
    rw [haddr]
    dsimp only
    rw [href]
  constructor
  · intro hder
    rw [hstep, hder]
    rw [if_neg (by decide)]
  · intro hder
    refine ⟨?_, ?_, ?_, ?_⟩
    · intro hmem
      rw [hstep, hder]
      rw [if_pos rfl]
      unfold Memory.get_relocatable
      rw [hmem]
    · intro z hmem
      rw [hstep, hder]
      rw [if_pos rfl]
      unfold Memory.get_relocatable
      rw [hmem]
    · intro d hmem himm
      rw [hstep, hder]
      rw [if_pos rfl]
      unfold Memory.get_relocatable
      rw [hmem]
      dsimp only
      rw [himm]
    · intro d imm hmem himm him0 him64 hsum
      rw [hstep, hder]
      rw [if_pos rfl]
      unfold Memory.get_relocatable
      rw [hmem]
      dsimp only
      rw [himm]
      unfold bigint_to_usize
      dsimp only
      rw [if_pos ⟨him0, him64⟩]
      dsimp only
      unfold usizeAdd
      rw [Nat.mod_eq_of_lt hsum]

/-- The reference mapping for the C8 witness: `x` is a dereferenced
FramePointer reference with immediate 2. -/
def cIdsC8 : String → Option HintReference :=
  fun k => if k = "x" then some ⟨Register.FP, 0, 0, true, false, none, some 2⟩
    else none

/-- The memory for the C8 witness: cell `(0, 0)` holds the address
`(2, 5)`. -/
def cMemC8 : Memory := fun a =>
  if a = .RelocatableValue ⟨0, 0⟩ then .ok (some (.RelocatableValue ⟨2, 5⟩))
  else .ok none

/-- The VM proxy for the C8 witness: `fp = (0, 0)`. -/
def cVMC8 : VMProxy := ⟨cMemC8, ⟨.Int 0, .RelocatableValue ⟨0, 0⟩⟩⟩

/-- Closed witness for C8: variable `x` resolves to cell `(0, 0)`, which
holds address `(2, 5)`; with immediate 2 the returned pointer is
`(2, 7)`. -/
theorem get_ptr_from_var_name_spec_witness :
    get_ptr_from_var_name "x" cVMC8 cIdsC8 ⟨0, 0⟩ = .ok ⟨2, 7⟩ :=
  (((get_ptr_from_var_name_spec cVMC8 cIdsC8 ⟨0, 0⟩ "x"
      ⟨Register.FP, 0, 0, true, false, none, some 2⟩ ⟨0, 0⟩ (by decide)
      (by decide)).2 rfl).2.2.2) ⟨2, 5⟩ 2 (by decide) rfl (by decide)
    (by decide) (by decide)

/-! ## Helper lemmas for the memcpy counted-loop claim -/

theorem get_int_ref_ok_ne_nil (sc : ExecutionScopes) (m : Int)
    (h : sc.get_int_ref "n" = .ok m) : sc.data ≠ [] := by
  intro hnil
  unfold ExecutionScopes.get_int_ref at h
  rw [hnil] at h
  exact absurd h (by simp)

theorem get_int_ref_insert_same (sc : ExecutionScopes) (h : sc.data ≠ [])
    (n : Int) : (sc.insert_value "n" (.int n)).get_int_ref "n" = .ok n := by
  obtain ⟨a, t, hd⟩ : ∃ a t, sc.data = a :: t := by
    cases hx : sc.data with
    | nil => exact absurd hx h
    | cons a t => exact ⟨a, t, rfl⟩
  unfold ExecutionScopes.insert_value
  rw [hd]
  unfold ExecutionScopes.get_int_ref
  dsimp only
  rw [if_pos rfl]

theorem memcpy_continue_copying_eq (vm : VMProxy) (sc : ExecutionScopes)
    (ids_data : String → Option HintReference) (apt : ApTracking)
    (m : Int) (addr : Relocatable)
    (hn : sc.get_int_ref "n" = .ok m)
    (haddr : get_relocatable_from_var_name "continue_copying" vm ids_data apt
      = .ok addr)
    (hcell : vm.memory (.RelocatableValue addr) = .ok none) :
    memcpy_continue_copying vm sc ids_data apt =
      .ok ({ vm with memory := fun a =>
          if a = .RelocatableValue addr then
            (.ok (some (.Int (if 0 < m - 1 then 1 else 0))))
          else vm.memory a },
        sc.insert_value "n" (.int (m - 1))) := by
  by_cases hpos : 0 < m - 1
  · unfold memcpy_continue_copying
    rw [hn]
    dsimp only
    rw [if_pos hpos]
    unfold insert_value_from_var_name
    rw [haddr]
    dsimp only
    unfold Memory.insert_value
    rw [hcell]
    dsimp only
    rw [if_pos hpos]
  · unfold memcpy_continue_copying
    rw [hn]
    dsimp only
    rw [if_neg hpos]
    unfold insert_value_from_var_name
    rw [haddr]
    dsimp only
    unfold Memory.insert_value
    rw [hcell]
    dsimp only
    rw [if_neg hpos]

theorem memcpy_continue_copying_scope (vm : VMProxy) (sc : ExecutionScopes)
    (ids_data : String → Option HintReference) (apt : ApTracking)
    (L : Int) (vm2 : VMProxy) (s2 : ExecutionScopes)
    (hn : sc.get_int_ref "n" = .ok L)
    (h : memcpy_continue_copying vm sc ids_data apt = .ok (vm2, s2)) :
    s2 = sc.insert_value "n" (.int (L - 1)) := by
  unfold memcpy_continue_copying at h
  rw [hn] at h
  dsimp only at h
  by_cases hpos : 0 < L - 1
  · rw [if_pos hpos] at h
    cases hins : insert_value_from_var_name "continue_copying" (.Int 1) vm ids_data apt with
    | error e =>
      rw [hins] at h
      exact absurd h (by simp)
    | ok vmx =>
      rw [hins] at h
      simp only [Except.ok.injEq, Prod.mk.injEq] at h
      exact h.2.symm
  · rw [if_neg hpos] at h
    cases hins : insert_value_from_var_name "continue_copying" (.Int 0) vm ids_data apt with
    | error e =>
      rw [hins] at h
      exact absurd h (by simp)
    | ok vmx =>
      rw [hins] at h
      simp only [Except.ok.injEq, Prod.mk.injEq] at h
      exact h.2.symm

theorem memcpy_iter_get_n (ids_data : String → Option HintReference)
    (apt : ApTracking) :
    ∀ k : Nat, ∀ vm : VMProxy, ∀ sc : ExecutionScopes, ∀ L : Int,
    ∀ vmk : VMProxy, ∀ sck : ExecutionScopes,
    sc.get_int_ref "n" = .ok L →
    memcpy_iter k vm sc ids_data apt = .ok (vmk, sck) →
    sck.get_int_ref "n" = .ok (L - k) := by
  intro k
  induction k with
  | zero =>
    intro vm sc L vmk sck hn hit
    unfold memcpy_iter at hit
    simp only [Except.ok.injEq, Prod.mk.injEq] at hit
    rw [← hit.2, hn]
    norm_num
  | succ k ih =>
    intro vm sc L vmk sck hn hit
    unfold memcpy_iter at hit
    cases hstep : memcpy_continue_copying vm sc ids_data apt with
    | error e =>
      rw [hstep] at hit
      exact absurd hit (by simp)
    | ok p =>
      rw [hstep] at hit
      dsimp only at hit
      have hs2 : p.2 = sc.insert_value "n" (.int (L - 1)) :=
        memcpy_continue_copying_scope vm sc ids_data apt L p.1 p.2 hn
          (by rw [hstep])
      have hn2 : p.2.get_int_ref "n" = .ok (L - 1) := by
        rw [hs2]
        exact get_int_ref_insert_same sc (get_int_ref_ok_ne_nil sc L hn) (L - 1)
      have := ih p.1 p.2 (L - 1) vmk sck hn2 (by
        cases p
        exact hit)
      rw [this]
      congr 1
      push_cast
      ring

/-- C7: reading `n = m` from the current scope, a successful call to
`memcpy_continue_copying` writes `1` into `continue_copying`'s resolved
cell when `m - 1 > 0` and `0` otherwise, and rebinds `n` to `m - 1` in the
current scope; it fails with `VariableNotInScope` when `n` is absent or of
the wrong dynamic type; `memcpy_enter_scope` pushes a scope binding `n` to
`len`; and after `k` successful calls the current scope's `n` equals the
initial value minus `k` (so the flag written at call `k` is `1` iff
`len - k > 0`). -/
theorem memcpy_continue_copying_spec (vm : VMProxy) (sc : ExecutionScopes)
    (ids_data : String → Option HintReference) (apt : ApTracking)
    (m : Int) (addr : Relocatable)
    (hn : sc.get_int_ref "n" = .ok m)
    (haddr : get_relocatable_from_var_name "continue_copying" vm ids_data apt
      = .ok addr)
    (hcell : vm.memory (.RelocatableValue addr) = .ok none) :
    ((memcpy_continue_copying vm sc ids_data apt).map
        (fun p => (p.1.memory (.RelocatableValue addr), p.2.get_int_ref "n")) =
      .ok (.ok (some (.Int (if 0 < m - 1 then 1 else 0))), .ok (m - 1)))
    ∧ (∀ sc2 : ExecutionScopes,
        sc2.get_int_ref "n" = .error (.VariableNotInScope "n") →
        memcpy_continue_copying vm sc2 ids_data apt =
          .error (.VariableNotInScope "n"))
    ∧ (∀ len : Int, ∀ sc0 : ExecutionScopes,
        get_integer_from_var_name "len" vm ids_data apt = .ok len →
        (memcpy_enter_scope vm sc0 ids_data apt).map
            (fun s => s.get_int_ref "n") = .ok (.ok len))
    ∧ (∀ k : Nat, ∀ vmk : VMProxy, ∀ sck : ExecutionScopes,
        memcpy_iter k vm sc ids_data apt = .ok (vmk, sck) →
        sck.get_int_ref "n" = .ok (m - k)) := by
  refine ⟨?_, ?_, ?_, ?_⟩
  · rw [memcpy_continue_copying_eq vm sc ids_data apt m addr hn haddr hcell]
    simp only [Except.map, Except.ok.injEq, Prod.mk.injEq]
    refine ⟨by simp, ?_⟩
    exact get_int_ref_insert_same sc (get_int_ref_ok_ne_nil sc m hn) (m - 1)
  · intro sc2 h2
    unfold memcpy_continue_copying
    rw [h2]
  · intro len sc0 hlen
    unfold memcpy_enter_scope
    rw [hlen]
    simp only [Except.map, Except.ok.injEq]
    unfold ExecutionScopes.enter_scope ExecutionScopes.get_int_ref
    dsimp only
    rw [if_pos rfl]
  · intro k vmk sck hit
    exact memcpy_iter_get_n ids_data apt k vm sc m vmk sck hn hit

/-- The reference mapping for the C7 witness: `continue_copying` is a
plain FramePointer reference resolving to the cell at `fp`. -/
def cIdsC7 : String → Option HintReference :=
  fun k => if k = "continue_copying" then
    some ⟨Register.FP, 0, 0, false, false, none, none⟩
  else none

/-- The VM proxy for the C7 witness: empty memory, `fp = (0, 3)`. -/
def cVMC7 : VMProxy := ⟨cMemEmpty, ⟨.Int 0, .RelocatableValue ⟨0, 3⟩⟩⟩

/-- The scope stack for the C7 witness: one scope binding `n = 2`. -/
def cScopesC7 : ExecutionScopes :=
  ⟨[fun k => if k = "n" then some (.int 2) else none]⟩

/-- Closed witness for C7: with `n = 2` the call writes `1` into the cell
`(0, 3)` and rebinds `n` to `1`. -/
theorem memcpy_continue_copying_spec_witness :
    (memcpy_continue_copying cVMC7 cScopesC7 cIdsC7 ⟨0, 0⟩).map
        (fun p => (p.1.memory (.RelocatableValue ⟨0, 3⟩), p.2.get_int_ref "n")) =
      .ok (.ok (some (.Int 1)), .ok 1) :=
  (memcpy_continue_copying_spec cVMC7 cScopesC7 cIdsC7 ⟨0, 0⟩ 2 ⟨0, 3⟩
    (by decide) (by decide) (by decide)).1

end CairoHints
